import Mathlib

/-!
Verification development for the neural-style-transfer repository.

The serving process (model_app) exposes a /transfer endpoint that routes a
request either to an iterative optimization engine (style "style_custom") or
to one of several pretrained generative (GAN) engines.  The conversational
front-end (bot_app) is a per-user finite-state machine with media-group
aggregation and rate limiting.  Both are shallowly embedded below: pure
control logic is translated directly from the Python sources; opaque
numerical operations (torch model construction, fitting, inference, image
decoding) become explicit function parameters; Python exceptions become
Except values or explicit outcome flags; effectful handler bodies become
pure functions that return a record of the effects they performed, in
program order.  The file lists all definitions first and all theorems after
them.
-/

set_option maxHeartbeats 1000000

namespace ModelApp

/-- JSON body of a POST /transfer request
(src/model_app/src/utils/requests.py, src/bot_app/src/utils/requests.py:
keys style, style_image, content_images, username, password; images travel
as base64 strings). -/
structure TransferRequest where
  style : String
  style_image : String
  content_images : List String
  username : String
  password : String
deriving DecidableEq

/-- Errors the serving process can raise while handling /transfer.
unknownStyle models the KeyError raised by the dict lookup
gan_models[request.json["style"]] in StyleTransferAPI.use_gan_model when the
style identifier is not a key of the registry (it surfaces as an error
response, not as a substituted style).  poolValueError models the
ValueError ("Number of processes must be at least 1") raised by
multiprocessing.Pool in StyleTransferAPI.use_neural_algorithm when the
requested pool size min(len(content_images), pool_size) is zero, i.e. on a
custom-style request with an empty content image list. -/
inductive TransferError where
  | unknownStyle (style : String)
  | poolValueError
deriving DecidableEq

/-- Python dict lookup on an association list (first binding wins). -/
def dictFind {V : Type} : List (String × V) → String → Option V
  | [], _ => none
  | (k, v) :: rest, key => if k = key then some v else dictFind rest key

/-- Input size chosen by extract_original_images
(src/model_app/src/utils/requests.py lines 24-25): [512, 512] when CUDA is
available, else [256, 256]. -/
def cudaSize (cuda : Bool) : Nat × Nat :=
  if cuda then (512, 512) else (256, 256)

/-- extract_original_images (src/model_app/src/utils/requests.py lines 16-36).
Image decoding (base64_to_image composed with load_image_from_buffer and the
optional resize) is abstracted as the parameter loadImage, applied to the
requested size and the base64 payload.  With with_style = false no style
image is extracted and content images are loaded with size None. -/
def extract_original_images {Timg : Type}
    (loadImage : Option (Nat × Nat) → String → Timg) (cuda : Bool)
    (json : TransferRequest) (with_style : Bool) :
    Option Timg × List Timg :=
  if with_style then
    (some (loadImage (some (cudaSize cuda)) json.style_image),
     json.content_images.map (loadImage (some (cudaSize cuda))))
  else
    (none, json.content_images.map (loadImage none))

/-- get_fitted_image (src/model_app/src/utils/training.py lines 47-57):
build a fresh trainer from the style and content images, then fit a clone of
the content image.  The torch-level constructors are the abstract parameters
init_trainer and fit_image; the point preserved here is that every call
builds its own model instance from its own pair of inputs. -/
def get_fitted_image {Timg Tr Fimg : Type}
    (init_trainer : Timg → Timg → Tr) (fit_image : Tr → Timg → Fimg)
    (style_img content_img : Timg) : Fimg :=
  fit_image (init_trainer style_img content_img) content_img

/-- JSON body of a /transfer response
(pack_processed_images, src/model_app/src/utils/requests.py lines 39-50). -/
structure TransferResponse where
  fitted_images : List String
deriving DecidableEq

/-- pack_processed_images (src/model_app/src/utils/requests.py lines 39-50):
each fitted tensor is PNG-encoded and base64-encoded, abstracted as encode. -/
def pack_processed_images {Fimg : Type} (encode : Fimg → String)
    (fitted_images : List Fimg) : TransferResponse :=
  ⟨fitted_images.map encode⟩

/-- How StyleTransferAPI.use_neural_algorithm executed the fitting work:
synchronously for a single content image, or via a multiprocessing pool of
the recorded size. -/
inductive ExecMode where
  | sync
  | pooled (size : Nat)
deriving DecidableEq

/-- multiprocessing.Pool.starmap: applies the function to every argument
tuple and returns the results in the order of the argument list (order is
preserved even though execution is parallel). -/
def Pool_starmap {A B : Type} (f : A → B) (args : List A) : List B :=
  args.map f

namespace StyleTransferAPI

/-- Class attribute pool_size of StyleTransferAPI
(src/model_app/src/views/_views.py line 15). -/
def pool_size : Nat := 3

/-- StyleTransferAPI.use_neural_algorithm
(src/model_app/src/views/_views.py lines 28-42): extract style and content
images; with exactly one content image call get_fitted_image synchronously,
otherwise fan the calls out over a Pool of size min(count, pool_size) with
starmap.  Constructing Pool(processes) with processes below 1 raises
ValueError, so an empty content list errors before any fitting.  The
returned ExecMode records which branch ran. -/
def use_neural_algorithm {Timg Tr Fimg : Type}
    (loadImage : Option (Nat × Nat) → String → Timg) (cuda : Bool)
    (init_trainer : Timg → Timg → Tr) (fit_image : Tr → Timg → Fimg)
    (encode : Fimg → String)
    (json : TransferRequest) :
    Except TransferError (ExecMode × TransferResponse) :=
  match extract_original_images loadImage cuda json true with
  | (some style_image, content_images) =>
    if h : content_images.length = 1 then
      Except.ok (ExecMode.sync,
        pack_processed_images encode
          [get_fitted_image init_trainer fit_image style_image
             (content_images.get ⟨0, by omega⟩)])
    else
      -- Pool(processes) raises ValueError unless 1 <= processes
      if min content_images.length pool_size < 1 then
        Except.error TransferError.poolValueError
      else
        Except.ok (ExecMode.pooled (min content_images.length pool_size),
          pack_processed_images encode
            (Pool_starmap
              (fun content_image =>
                get_fitted_image init_trainer fit_image style_image
                  content_image)
              content_images))
  | (none, _) =>
    -- unreachable: extraction with the style flag set always returns a style image
    Except.ok (ExecMode.sync, pack_processed_images encode [])

/-- StyleTransferAPI.use_gan_model
(src/model_app/src/views/_views.py lines 44-54): extract content images with
with_style=False, then for each content image look up the pretrained model
registered under the request style and run inference on it.  The lookup sits
inside the per-image loop exactly as in the Python list comprehension, so a
request with an empty content list performs no lookup at all.  get_inferred_image
(src/model_app/src/utils/training.py lines 139-151) is the abstract parameter. -/
def use_gan_model {Timg Gm Fimg : Type}
    (loadImage : Option (Nat × Nat) → String → Timg) (cuda : Bool)
    (gan_models : List (String × Gm))
    (get_inferred_image : Gm → Timg → Fimg)
    (encode : Fimg → String)
    (json : TransferRequest) : Except TransferError TransferResponse := do
  let content_images := (extract_original_images loadImage cuda json false).2
  let inferred_images ← content_images.mapM (fun content_image =>
    match dictFind gan_models json.style with
    | some model => Except.ok (get_inferred_image model content_image)
    | none => Except.error (TransferError.unknownStyle json.style))
  return pack_processed_images encode inferred_images

/-- Which inference path StyleTransferAPI.post routed the request to,
together with the response it produced. -/
inductive RoutedResponse where
  | viaNeural (exec : ExecMode) (resp : TransferResponse)
  | viaGan (resp : TransferResponse)
deriving DecidableEq

/-- StyleTransferAPI.post (src/model_app/src/views/_views.py lines 17-26)
for a JSON request: style "style_custom" goes to use_neural_algorithm, any
other style goes to use_gan_model. -/
def post {Timg Tr Gm Fimg : Type}
    (loadImage : Option (Nat × Nat) → String → Timg) (cuda : Bool)
    (init_trainer : Timg → Timg → Tr) (fit_image : Tr → Timg → Fimg)
    (gan_models : List (String × Gm))
    (get_inferred_image : Gm → Timg → Fimg)
    (encode : Fimg → String)
    (json : TransferRequest) : Except TransferError RoutedResponse :=
  if json.style = "style_custom" then
    (use_neural_algorithm loadImage cuda init_trainer fit_image encode json).map
      (fun r => RoutedResponse.viaNeural r.1 r.2)
  else
    (use_gan_model loadImage cuda gan_models get_inferred_image encode json).map
      RoutedResponse.viaGan

end StyleTransferAPI

/-- Default pretrained style registry names
(get_pretrained_gan_models, src/model_app/src/utils/training.py lines
123-137). -/
def default_gan_style_names : List String :=
  ["style_monet", "style_cezanne", "style_ukiyoe", "style_vangogh"]

/-- Result of the /transfer endpoint with the login wrapper applied:
either one of the two plain-text rejections of the login decorator
(src/model_app/src/utils/requests.py lines 64-80), or the dispatched
response, or a propagated serving error. -/
inductive EndpointResult where
  | missingCredentials
  | authFailed
  | ok (r : StyleTransferAPI.RoutedResponse)
  | error (e : TransferError)
deriving DecidableEq

/-- The /transfer URL rule: login(users)(StyleTransferAPI.as_view(...))
(src/model_app/src/views/_views.py line 75 together with the login wrapper
in src/model_app/src/utils/requests.py lines 64-80).  Salted-hash checking
(werkzeug check_password_hash) is the abstract parameter check_password_hash;
Python truthiness of the credential strings is nonemptiness. -/
def transfer_endpoint {Timg Tr Gm Fimg : Type}
    (users : List (String × String))
    (check_password_hash : String → String → Bool)
    (loadImage : Option (Nat × Nat) → String → Timg) (cuda : Bool)
    (init_trainer : Timg → Timg → Tr) (fit_image : Tr → Timg → Fimg)
    (gan_models : List (String × Gm))
    (get_inferred_image : Gm → Timg → Fimg)
    (encode : Fimg → String)
    (json : TransferRequest) : EndpointResult :=
  if json.username ≠ "" ∧ json.password ≠ "" then
    match dictFind users json.username with
    | some pwhash =>
      if check_password_hash pwhash json.password then
        match StyleTransferAPI.post loadImage cuda init_trainer fit_image
            gan_models get_inferred_image encode json with
        | Except.ok r => EndpointResult.ok r
        | Except.error e => EndpointResult.error e
      else EndpointResult.authFailed
    | none => EndpointResult.authFailed
  else EndpointResult.missingCredentials

end ModelApp

namespace ModelApp.Losses

/-- The x.view(d1 * d2, d3 * d4) reshape in StyleLoss._to_gram_matrix
(src/model_app/src/losses/_losses.py line 57): row-major flattening of the
first two and last two tensor dimensions. -/
def tensorView {d1 d2 d3 d4 : ℕ} (x : Fin d1 → Fin d2 → Fin d3 → Fin d4 → ℚ)
    (r : Fin (d1 * d2)) (c : Fin (d3 * d4)) : ℚ :=
  x ⟨r.val / d2, by
      have hv := r.isLt
      have hb : 0 < d2 := Nat.pos_of_ne_zero (by rintro rfl; simp at hv)
      exact (Nat.div_lt_iff_lt_mul hb).mpr hv⟩
    ⟨r.val % d2, by
      have hv := r.isLt
      have hb : 0 < d2 := Nat.pos_of_ne_zero (by rintro rfl; simp at hv)
      exact Nat.mod_lt _ hb⟩
    ⟨c.val / d4, by
      have hv := c.isLt
      have hb : 0 < d4 := Nat.pos_of_ne_zero (by rintro rfl; simp at hv)
      exact (Nat.div_lt_iff_lt_mul hb).mpr hv⟩
    ⟨c.val % d4, by
      have hv := c.isLt
      have hb : 0 < d4 := Nat.pos_of_ne_zero (by rintro rfl; simp at hv)
      exact Nat.mod_lt _ hb⟩

/-- StyleLoss._to_gram_matrix (src/model_app/src/losses/_losses.py lines
49-58): with M the flattened view, the Gram matrix is M * M^T divided by the
element count d1*d2*d3*d4 of M.  Rational arithmetic stands for the tensor
arithmetic. -/
def to_gram_matrix {d1 d2 d3 d4 : ℕ}
    (x : Fin d1 → Fin d2 → Fin d3 → Fin d4 → ℚ)
    (i j : Fin (d1 * d2)) : ℚ :=
  (∑ k : Fin (d3 * d4), tensorView x i k * tensorView x j k) /
    ((d1 * d2) * (d3 * d4))

/-- torch.nn.functional.mse_loss with default mean reduction: mean of the
squared elementwise differences. -/
def mse_loss {n m : ℕ} (input target : Fin n → Fin m → ℚ) : ℚ :=
  (∑ i : Fin n, ∑ j : Fin m, (input i j - target i j) ^ 2) / (n * m)

/-- StyleLoss.forward (src/model_app/src/losses/_losses.py lines 40-47):
the recorded loss is the mse between the Gram matrix of the input and the
Gram matrix of the target stored at construction (line 37). -/
def StyleLoss_forward {d1 d2 d3 d4 : ℕ}
    (target x : Fin d1 → Fin d2 → Fin d3 → Fin d4 → ℚ) : ℚ :=
  mse_loss (to_gram_matrix x) (to_gram_matrix target)

end ModelApp.Losses

namespace BotApp

/-- The four states of StartStyleTransferForm
(src/bot_app/src/states/_states.py lines 6-17), in declaration order. -/
inductive ConvState where
  | choose_style
  | send_style_image
  | send_content_images
  | await_model_response
deriving DecidableEq

namespace StartStyleTransferForm

/-- Class attribute max_images of StartStyleTransferForm
(src/bot_app/src/states/_states.py line 13). -/
def max_images : Nat := 3

/-- aiogram StatesGroup.next(): advance to the state declared after the
current one (none past the last). -/
def next : ConvState → Option ConvState
  | ConvState.choose_style => some ConvState.send_style_image
  | ConvState.send_style_image => some ConvState.send_content_images
  | ConvState.send_content_images => some ConvState.await_model_response
  | ConvState.await_model_response => none

end StartStyleTransferForm

/-- A Telegram photo message as the content-image handlers see it: the
photo field lists the available resolutions and the handlers download
photo[-1], the largest; an empty list is Python-falsy. -/
structure Msg (Img : Type) where
  photo : List Img
deriving DecidableEq

/-- The per-session FSM proxy data written by the handlers: keys "style",
"style_image", "content_images". -/
structure SessionData (Img : Type) where
  style : String
  style_image : Option Img
  content_images : List Img
deriving DecidableEq

/-- Payload of request_style_transfer
(src/bot_app/src/utils/requests.py lines 11-50) as assembled from the
session data by the content-image handlers. -/
structure StyleRequest (Img : Type) where
  style : String
  style_image : Option Img
  content_images : List Img
deriving DecidableEq

/-- Outcome of the awaited request_style_transfer call as the handler sees
it: the processed images, or a raised asyncio TimeoutError, aiohttp
ClientOSError, or any other exception. -/
inductive RemoteOutcome (Img : Type) where
  | ok (processed_images : List Img)
  | timeoutError
  | clientError
  | otherError
deriving DecidableEq

/-- The observable effects of one run of a content-image handler, in
program order: the session data after the store phase, the state set by
StartStyleTransferForm.next(), the progress notice, the issued remote
request, the stale-state-guarded delivery phase, and the teardown of the
finally block. -/
structure HandlerRun (Img : Type) where
  data : SessionData Img
  stateAfterStore : Option ConvState
  beganNotice : Bool
  request : Option (StyleRequest Img)
  hereYouAreNotice : Bool
  delivered : List Img
  finished : Bool
  raised : Bool
deriving DecidableEq

/-- The collection loop of receive_content_images_handler
(src/bot_app/src/handlers/_messages.py lines 131-137): walk the media group
in arrival order; for each message whose photo field is truthy and while
fewer than max_images images are stored, download the largest resolution
and append it. -/
def collect_content_images {Img : Type} (media_group : List (Msg Img)) :
    List Img :=
  media_group.foldl
    (fun acc msg =>
      match msg.photo.getLast? with
      | some p =>
        if acc.length < StartStyleTransferForm.max_images then acc ++ [p]
        else acc
      | none => acc)
    []

/-- receive_content_image_handler
(src/bot_app/src/handlers/_messages.py lines 88-122): store the single
downloaded photo, advance the form (send_content_images to
await_model_response), announce the start, issue the remote request built
from the session data, and, if and only if the state observed after the
call returned is still await_model_response, deliver the first processed
image; the finally block tears the session down on every path.  The
arguments remote and stateAtReturn stand for the value produced by the
awaited call (or the exception it raised) and for the state another
coroutine may have changed while the call was in flight. -/
def receive_content_image_handler {Img : Type} (message : Msg Img)
    (data0 : SessionData Img) (remote : RemoteOutcome Img)
    (stateAtReturn : Option ConvState) : HandlerRun Img :=
  let data1 : SessionData Img :=
    { data0 with content_images := message.photo.getLast?.toList }
  let st1 := StartStyleTransferForm.next ConvState.send_content_images
  let req : StyleRequest Img :=
    { style := data1.style, style_image := data1.style_image,
      content_images := data1.content_images }
  match remote with
  | RemoteOutcome.ok processed_images =>
    if stateAtReturn = some ConvState.await_model_response then
      { data := data1, stateAfterStore := st1, beganNotice := true,
        request := some req, hereYouAreNotice := true,
        delivered := processed_images.take 1, finished := true,
        raised := false }
    else
      { data := data1, stateAfterStore := st1, beganNotice := true,
        request := some req, hereYouAreNotice := false, delivered := [],
        finished := true, raised := false }
  | _ =>
    { data := data1, stateAfterStore := st1, beganNotice := true,
      request := some req, hereYouAreNotice := false, delivered := [],
      finished := true, raised := true }

/-- receive_content_images_handler
(src/bot_app/src/handlers/_messages.py lines 125-166): same as the single
image handler but collecting up to max_images photos from the media group
and delivering the whole processed list as a media group. -/
def receive_content_images_handler {Img : Type}
    (media_group : List (Msg Img)) (data0 : SessionData Img)
    (remote : RemoteOutcome Img) (stateAtReturn : Option ConvState) :
    HandlerRun Img :=
  let data1 : SessionData Img :=
    { data0 with content_images := collect_content_images media_group }
  let st1 := StartStyleTransferForm.next ConvState.send_content_images
  let req : StyleRequest Img :=
    { style := data1.style, style_image := data1.style_image,
      content_images := data1.content_images }
  match remote with
  | RemoteOutcome.ok processed_images =>
    if stateAtReturn = some ConvState.await_model_response then
      { data := data1, stateAfterStore := st1, beganNotice := true,
        request := some req, hereYouAreNotice := true,
        delivered := processed_images, finished := true, raised := false }
    else
      { data := data1, stateAfterStore := st1, beganNotice := true,
        request := some req, hereYouAreNotice := false, delivered := [],
        finished := true, raised := false }
  | _ =>
    { data := data1, stateAfterStore := st1, beganNotice := true,
      request := some req, hereYouAreNotice := false, delivered := [],
      finished := true, raised := true }

/-- A message as GatherMediaGroupMiddleware sees it: an identity and the
optional provider-assigned media_group_id. -/
structure GMsg where
  mid : Nat
  media_group_id : Option String
deriving DecidableEq

/-- The group id of a message known to carry one (the default value never
matters at use sites, which all assume media_group_id is present). -/
def gidD (m : GMsg) : String :=
  m.media_group_id.getD ""

/-- The events of the aggregation protocol under aiogram's cooperative
scheduler: a message arrives and runs on_process_message to its next
suspension point, or the representative of a group wakes from the latency
sleep, reads the accumulated buffer entry, runs the downstream handler and
then (having set conf["is_last"]) deletes the entry in
on_post_process_message. -/
inductive AggEvent where
  | arrive (m : GMsg)
  | resume (gid : String)
deriving DecidableEq

/-- The shared state of GatherMediaGroupMiddleware plus the observable
outcomes: media_group_data is the class-level buffer
(src/bot_app/src/middlewares/_middlewares.py line 90), batches the
media_group lists handed to downstream handlers, singles the messages
processed individually (no group id), cancelled the messages whose
independent handling was aborted with CancelHandler. -/
structure AggState where
  media_group_data : List (String × List GMsg)
  batches : List (List GMsg)
  singles : List GMsg
  cancelled : List GMsg
deriving DecidableEq

/-- Append a message to the buffer entry of the given group id
(self.media_group_data[message.media_group_id].append(message)). -/
def dictAppend (d : List (String × List GMsg)) (k : String) (m : GMsg) :
    List (String × List GMsg) :=
  d.map (fun kv => if kv.1 = k then (kv.1, kv.2 ++ [m]) else kv)

/-- Delete the buffer entry of the given group id
(del self.media_group_data[message.media_group_id]). -/
def dictErase (d : List (String × List GMsg)) (k : String) :
    List (String × List GMsg) :=
  d.filter (fun kv => !(decide (kv.1 = k)))

/-- One scheduler step of GatherMediaGroupMiddleware
(src/bot_app/src/middlewares/_middlewares.py lines 100-129).  An arrival
with no group id passes through to independent handling.  The first arrival
of a group id opens the buffer entry and suspends on the latency sleep (its
resume event seals the batch later).  A subsequent arrival for an open
group id appends itself to the entry and raises CancelHandler.  On resume
the representative reads the accumulated entry as data["media_group"],
the downstream handler runs, and on_post_process_message (seeing
conf["is_last"]) deletes the entry. -/
def aggStep (s : AggState) : AggEvent → AggState
  | AggEvent.arrive m =>
    match m.media_group_id with
    | none => { s with singles := s.singles ++ [m] }
    | some gid =>
      match ModelApp.dictFind s.media_group_data gid with
      | none =>
        { s with media_group_data := s.media_group_data ++ [(gid, [m])] }
      | some _ =>
        { s with media_group_data := dictAppend s.media_group_data gid m,
                 cancelled := s.cancelled ++ [m] }
  | AggEvent.resume gid =>
    match ModelApp.dictFind s.media_group_data gid with
    | some msgs =>
      { s with batches := s.batches ++ [msgs],
               media_group_data := dictErase s.media_group_data gid }
    | none => s

/-- Run the aggregator from the empty buffer over a schedule of events. -/
def aggRun (events : List AggEvent) : AggState :=
  events.foldl aggStep ⟨[], [], [], []⟩

end BotApp

namespace Base64

/-- The base64 alphabet of RFC 4648, as used by Python's base64 module. -/
def alphabet : List Char :=
  "ABCDEFGHIJKLMNOPQRSTUVWXYZabcdefghijklmnopqrstuvwxyz0123456789+/".toList

/-- Character for a 6-bit group (the fallback is never reached for values
below 64). -/
def b64char (n : Nat) : Char :=
  (alphabet.get? n).getD 'A'

/-- 6-bit value of an alphabet character (the length 64 for any other). -/
def b64val (c : Char) : Nat :=
  alphabet.indexOf c

/-- Core base64 encoding of a byte list: three bytes become four alphabet
characters; one or two trailing bytes are encoded with "=" padding. -/
def encodeChunks : List Nat → List Char
  | x :: y :: z :: rest =>
    b64char (x / 4) :: b64char (x % 4 * 16 + y / 16) ::
      b64char (y % 16 * 4 + z / 64) :: b64char (z % 64) :: encodeChunks rest
  | [x, y] =>
    [b64char (x / 4), b64char (x % 4 * 16 + y / 16), b64char (y % 16 * 4), '=']
  | [x] => [b64char (x / 4), b64char (x % 4 * 16), '=', '=']
  | [] => []

/-- Python base64.encodebytes: encode successive 57-byte chunks of the
input, each producing one 76-character line terminated by a newline. -/
def encodebytes (bs : List Nat) : List Char :=
  if h : bs = [] then []
  else encodeChunks (bs.take 57) ++ '\n' :: encodebytes (bs.drop 57)
termination_by bs.length
decreasing_by
  simp only [List.length_drop]
  have := List.length_pos.mpr h
  omega

/-- The characters base64.decodebytes (binascii) decodes: the alphabet and
the padding character; every other byte (newlines included) is skipped. -/
def keepChar (c : Char) : Bool :=
  alphabet.contains c || c = '='

/-- Core base64 decoding of the kept characters, four at a time, honoring
"=" padding. -/
def decodeQuads : List Char → List Nat
  | a :: b :: c :: d :: rest =>
    if c = '=' then [b64val a * 4 + b64val b / 16]
    else if d = '=' then
      [b64val a * 4 + b64val b / 16, b64val b % 16 * 16 + b64val c / 4]
    else
      (b64val a * 4 + b64val b / 16) ::
        (b64val b % 16 * 16 + b64val c / 4) ::
        (b64val c % 4 * 64 + b64val d) :: decodeQuads rest
  | _ => []

/-- Python base64.decodebytes: discard non-alphabet characters and decode
the remaining quads. -/
def decodebytes (s : List Char) : List Nat :=
  decodeQuads (s.filter keepChar)

end Base64

/-- io.BytesIO: a byte buffer together with its current seek position. -/
structure ByteBuf where
  data : List Nat
  pos : Nat
deriving DecidableEq

namespace BotApp.Images

/-- image_to_base64 (src/bot_app/src/utils/images.py lines 8-15): the
buffer is rewound with image.seek(0), fully read, encoded with
base64.encodebytes and decoded to str — so the result depends on the byte
contents only, never on the buffer's current position. -/
def image_to_base64 (image : ByteBuf) : String :=
  ⟨Base64.encodebytes image.data⟩

/-- base64_to_image (src/bot_app/src/utils/images.py lines 18-24):
BytesIO(base64.decodebytes(image.encode())), a fresh buffer at position 0. -/
def base64_to_image (image : String) : ByteBuf :=
  ⟨Base64.decodebytes image.toList, 0⟩

end BotApp.Images

namespace ModelApp.Images

/-- image_to_base64 (src/model_app/src/utils/images.py lines 64-71),
textually identical to the bot_app helper. -/
def image_to_base64 (image : ByteBuf) : String :=
  ⟨Base64.encodebytes image.data⟩

/-- base64_to_image (src/model_app/src/utils/images.py lines 74-80),
textually identical to the bot_app helper. -/
def base64_to_image (image : String) : ByteBuf :=
  ⟨Base64.decodebytes image.toList, 0⟩

end ModelApp.Images

namespace BotApp.Throttling

/-- Modelled from the spec: the Throttle Record of the external aiogram
dispatcher (dispatcher.throttle / check_key are library code, not in src/):
"keyed by (handler identity, prefix); attributes: last-action timestamp,
current exceeded-count" (spec section 3), enforcing the minimum
inter-message interval of section 4.3.  Times are rationals. -/
structure Bucket where
  lastCall : Option ℚ
  exceededCount : Nat
deriving DecidableEq

/-- The data carried by the aiogram Throttled exception as read by
ThrottlingMiddleware.message_throttled: rate, delta (time elapsed since the
previous call) and the updated exceeded count. -/
structure Throttled where
  rate : ℚ
  delta : ℚ
  exceededCount : Nat
deriving DecidableEq

/-- Modelled from the spec: dispatcher.throttle(key, rate) at time now — a
pass (first message ever, or one arriving at least rate after the previous)
refreshes the timestamp and resets the exceeded count; a violation within
the interval increments the count, refreshes the timestamp and raises
Throttled carrying the record. -/
def throttleCall (rate : ℚ) (b : Bucket) (now : ℚ) :
    Bucket × Option Throttled :=
  match b.lastCall with
  | none => ({ lastCall := some now, exceededCount := 0 }, none)
  | some last =>
    if now - last < rate then
      ({ lastCall := some now, exceededCount := b.exceededCount + 1 },
       some { rate := rate, delta := now - last,
              exceededCount := b.exceededCount + 1 })
    else
      ({ lastCall := some now, exceededCount := 0 }, none)

/-- The observable outcome of running ThrottlingMiddleware.on_process_message
on one message: whether dispatch reached the handler, whether the message
was deleted, whether the "banned" notice was sent, and the unban re-check
the violation coroutine schedules (its wake time together with the
exceeded-count snapshot it will compare against). -/
structure MsgOutcome where
  reachedHandler : Bool
  deleted : Bool
  bannedNotice : Bool
  unbanCheck : Option (ℚ × Nat)
deriving DecidableEq

/-- ThrottlingMiddleware.on_process_message and message_throttled
(src/bot_app/src/middlewares/_middlewares.py lines 28-83): media-group
messages bypass throttling entirely; a pass reaches the handler; on
Throttled the message is deleted, the "banned" notice is sent iff
exceeded_count is at most 2, a sleep of rate - delta is scheduled at whose
end check_key is compared against the exceeded_count snapshot, and
CancelHandler aborts dispatch of the update. -/
def on_process_message (rate : ℚ) (mediaGroup : Bool) (b : Bucket)
    (now : ℚ) : Bucket × MsgOutcome :=
  if mediaGroup then
    (b, { reachedHandler := true, deleted := false, bannedNotice := false,
          unbanCheck := none })
  else
    match throttleCall rate b now with
    | (b1, none) =>
      (b1, { reachedHandler := true, deleted := false, bannedNotice := false,
             unbanCheck := none })
    | (b1, some thr) =>
      (b1, { reachedHandler := false, deleted := true,
             bannedNotice := decide (thr.exceededCount ≤ 2),
             unbanCheck := some (now + (thr.rate - thr.delta),
                                 thr.exceededCount) })

/-- Run the middleware over a sequence of (non-media-group) message arrival
times, collecting the final bucket and the outcome of each message in
order. -/
def throttleRun (rate : ℚ) : Bucket → List ℚ → Bucket × List MsgOutcome
  | b, [] => (b, [])
  | b, t :: ts =>
    let r1 := on_process_message rate false b t
    let r2 := throttleRun rate r1.1 ts
    (r2.1, r1.2 :: r2.2)

/-- The exceeded count an unban coroutine reads back (dispatcher.check_key)
at its wake time: the record after all arrivals not later than that time. -/
def exceededAt (rate : ℚ) (times : List ℚ) (wake : ℚ) : Nat :=
  ((times.filter (fun t => decide (t ≤ wake))).foldl
    (fun b t => (throttleCall rate b t).1)
    { lastCall := none, exceededCount := 0 }).exceededCount

/-- Whether the unban coroutine scheduled by a violation sends the
"You have been unbanned." notice: the count at its wake still equals its
snapshot (thr.exceeded_count == throttled.exceeded_count, middleware lines
80-83). -/
def unbannedNotice (rate : ℚ) (times : List ℚ) (check : Option (ℚ × Nat)) :
    Bool :=
  match check with
  | some (wake, snapshot) => exceededAt rate times wake == snapshot
  | none => false

/-- The outcome list a maximal run of consecutive violations produces, one
outcome per violating arrival: deleted, cancelled, "banned" notice exactly
while the running count is at most 2, and an unban check waking one rate
after the previous arrival with the running count as snapshot. -/
def expectedViolOutcomes (rate : ℚ) : ℚ → Nat → List ℚ → List MsgOutcome
  | _, _, [] => []
  | prev, k, t :: ts =>
    { reachedHandler := false, deleted := true,
      bannedNotice := decide (k + 1 ≤ 2),
      unbanCheck := some (prev + rate, k + 1) } ::
      expectedViolOutcomes rate t (k + 1) ts

end BotApp.Throttling

/- ===== Theorems: helper lemmas first, then one theorem per claim. ===== -/

namespace ModelApp

/-- Mapping a function that always succeeds over a list in the Except monad
never fails and returns the mapped list. -/
theorem mapM_ok {A B E : Type} (f : A → B) :
    ∀ l : List A,
      (List.mapM (fun a => (Except.ok (f a) : Except E B)) l) = Except.ok (l.map f)
  | [] => rfl
  | a :: l => by
    rw [List.mapM_cons, mapM_ok f l]
    rfl

end ModelApp

namespace ModelApp.Losses

/-- C5: for every 4-dimensional activation tensor x, the style-loss Gram
matrix of x is symmetric, and the style loss evaluated at x equal to the
target activation is exactly zero. -/
theorem c5_gram_symmetric_and_self_loss_zero {d1 d2 d3 d4 : ℕ}
    (x : Fin d1 → Fin d2 → Fin d3 → Fin d4 → ℚ) :
    (∀ i j, to_gram_matrix x i j = to_gram_matrix x j i) ∧
    StyleLoss_forward x x = 0 := by
  constructor
  · intro i j
    unfold to_gram_matrix
    congr 1
    exact Finset.sum_congr rfl (fun k _ => mul_comm _ _)
  · unfold StyleLoss_forward mse_loss
    simp [sub_self]

end ModelApp.Losses

namespace ModelApp

/-- With exactly one content image use_neural_algorithm runs synchronously
and fits that image. -/
theorem use_neural_algorithm_singleton {Timg Tr Fimg : Type}
    (loadImage : Option (Nat × Nat) → String → Timg) (cuda : Bool)
    (init_trainer : Timg → Timg → Tr) (fit_image : Tr → Timg → Fimg)
    (encode : Fimg → String) (json : TransferRequest)
    (h1 : json.content_images.length = 1) :
    StyleTransferAPI.use_neural_algorithm loadImage cuda init_trainer
        fit_image encode json =
      Except.ok (ExecMode.sync,
        pack_processed_images encode
          (json.content_images.map (fun content_image =>
            get_fitted_image init_trainer fit_image
              (loadImage (some (cudaSize cuda)) json.style_image)
              (loadImage (some (cudaSize cuda)) content_image)))) := by
  obtain ⟨style, style_image, l, username, password⟩ := json
  obtain ⟨c, rfl⟩ := List.length_eq_one.mp h1
  simp [StyleTransferAPI.use_neural_algorithm, extract_original_images,
    pack_processed_images]

/-- With at least two content images use_neural_algorithm fans out over a
pool of size min(count, 3), preserving the input order. -/
theorem use_neural_algorithm_multi {Timg Tr Fimg : Type}
    (loadImage : Option (Nat × Nat) → String → Timg) (cuda : Bool)
    (init_trainer : Timg → Timg → Tr) (fit_image : Tr → Timg → Fimg)
    (encode : Fimg → String) (json : TransferRequest)
    (h2 : 2 ≤ json.content_images.length) :
    StyleTransferAPI.use_neural_algorithm loadImage cuda init_trainer
        fit_image encode json =
      Except.ok (ExecMode.pooled (min json.content_images.length 3),
        pack_processed_images encode
          (json.content_images.map (fun content_image =>
            get_fitted_image init_trainer fit_image
              (loadImage (some (cudaSize cuda)) json.style_image)
              (loadImage (some (cudaSize cuda)) content_image)))) := by
  obtain ⟨style, style_image, l, username, password⟩ := json
  rcases l with _ | ⟨c1, _ | ⟨c2, rest⟩⟩
  · simp at h2
  · simp at h2
  · have hextract : extract_original_images loadImage cuda
        ⟨style, style_image, c1 :: c2 :: rest, username, password⟩ true =
        (some (loadImage (some (cudaSize cuda)) style_image),
         (c1 :: c2 :: rest).map (loadImage (some (cudaSize cuda)))) := by
      simp [extract_original_images]
    simp only [StyleTransferAPI.use_neural_algorithm, hextract]
    rw [dif_neg (by simp)]
    rw [if_neg (by
      simp only [List.length_map, List.length_cons, StyleTransferAPI.pool_size]
      omega)]
    simp [pack_processed_images, Pool_starmap, StyleTransferAPI.pool_size,
      List.map_map, Function.comp]

/-- With no content image at all, use_neural_algorithm raises the Pool
ValueError: Pool(min(0, 3)) refuses a pool of zero workers. -/
theorem use_neural_algorithm_nil {Timg Tr Fimg : Type}
    (loadImage : Option (Nat × Nat) → String → Timg) (cuda : Bool)
    (init_trainer : Timg → Timg → Tr) (fit_image : Tr → Timg → Fimg)
    (encode : Fimg → String) (json : TransferRequest)
    (h0 : json.content_images = []) :
    StyleTransferAPI.use_neural_algorithm loadImage cuda init_trainer
        fit_image encode json =
      Except.error TransferError.poolValueError := by
  obtain ⟨style, style_image, l, username, password⟩ := json
  obtain rfl : l = [] := h0
  simp [StyleTransferAPI.use_neural_algorithm, extract_original_images,
    StyleTransferAPI.pool_size]

/-- C4: Optimization Engine dispatch: a single content image is fitted
synchronously without a pool; k images with k at least 2 are fanned out
across a pool of size min(k, 3); and for every nonempty batch the output
list order matches the input list order, each output obtained by building a
fresh trainer from the style image and that content image alone.  (A batch
with zero content images produces no response: Pool(min(0, 3)) raises
ValueError.) -/
theorem c4_optimization_engine_dispatch {Timg Tr Fimg : Type}
    (loadImage : Option (Nat × Nat) → String → Timg) (cuda : Bool)
    (init_trainer : Timg → Timg → Tr) (fit_image : Tr → Timg → Fimg)
    (encode : Fimg → String) (json : TransferRequest) :
    (json.content_images.length = 1 →
      StyleTransferAPI.use_neural_algorithm loadImage cuda init_trainer
          fit_image encode json =
        Except.ok (ExecMode.sync,
          pack_processed_images encode
            (json.content_images.map (fun content_image =>
              get_fitted_image init_trainer fit_image
                (loadImage (some (cudaSize cuda)) json.style_image)
                (loadImage (some (cudaSize cuda)) content_image))))) ∧
    (2 ≤ json.content_images.length →
      StyleTransferAPI.use_neural_algorithm loadImage cuda init_trainer
          fit_image encode json =
        Except.ok (ExecMode.pooled (min json.content_images.length 3),
          pack_processed_images encode
            (json.content_images.map (fun content_image =>
              get_fitted_image init_trainer fit_image
                (loadImage (some (cudaSize cuda)) json.style_image)
                (loadImage (some (cudaSize cuda)) content_image))))) ∧
    (json.content_images ≠ [] →
      ∃ exec,
        StyleTransferAPI.use_neural_algorithm loadImage cuda init_trainer
            fit_image encode json =
          Except.ok (exec,
            pack_processed_images encode
              (json.content_images.map (fun content_image =>
                get_fitted_image init_trainer fit_image
                  (loadImage (some (cudaSize cuda)) json.style_image)
                  (loadImage (some (cudaSize cuda)) content_image))))) := by
  refine ⟨use_neural_algorithm_singleton loadImage cuda init_trainer
      fit_image encode json,
    use_neural_algorithm_multi loadImage cuda init_trainer fit_image
      encode json, ?_⟩
  intro hne
  rcases Nat.lt_or_ge json.content_images.length 2 with hlt | hge
  · have h1 : json.content_images.length = 1 := by
      have hpos := List.length_pos.mpr hne
      omega
    exact ⟨ExecMode.sync, use_neural_algorithm_singleton loadImage cuda
      init_trainer fit_image encode json h1⟩
  · exact ⟨ExecMode.pooled (min json.content_images.length 3),
      use_neural_algorithm_multi loadImage cuda init_trainer fit_image
        encode json hge⟩

/-- C4 witness: concrete single-image and two-image requests, dispatched
synchronously and across a pool of size min(2, 3) respectively, outputs in
input order. -/
theorem c4_optimization_engine_dispatch_witness :
    StyleTransferAPI.use_neural_algorithm (fun _ s => s) false
        (fun s c => s ++ c) (fun t c => t ++ c) (fun s => s)
        ⟨"style_custom", "S", ["a"], "u", "p"⟩ =
      Except.ok (ExecMode.sync,
        pack_processed_images (fun s => s)
          ((["a"] : List String).map (fun content_image =>
            get_fitted_image (fun s c => s ++ c) (fun t c => t ++ c)
              "S" content_image))) ∧
    StyleTransferAPI.use_neural_algorithm (fun _ s => s) false
        (fun s c => s ++ c) (fun t c => t ++ c) (fun s => s)
        ⟨"style_custom", "S", ["a", "b"], "u", "p"⟩ =
      Except.ok (ExecMode.pooled (min 2 3),
        pack_processed_images (fun s => s)
          ((["a", "b"] : List String).map (fun content_image =>
            get_fitted_image (fun s c => s ++ c) (fun t c => t ++ c)
              "S" content_image))) :=
  ⟨(c4_optimization_engine_dispatch _ _ _ _ _ _).1 (by decide),
   (c4_optimization_engine_dispatch _ _ _ _ _ _).2.1 (by decide)⟩

/-- C1 counterexample: with the default pretrained style registry, a
/transfer request whose style identifier is unrecognized but whose content
image list is empty is answered successfully with an empty fitted-image list
(the registry lookup sits inside the per-image loop, so it never runs),
instead of failing with an UnknownStyle condition as the claim states. -/
theorem c1_counterexample :
    StyleTransferAPI.post (fun _ s => s) false (fun s c => s ++ c)
        (fun t c => t ++ c) (default_gan_style_names.map (fun n => (n, n)))
        (fun m c => m ++ c) (fun s => s)
        ⟨"style_picasso", "", [], "u", "p"⟩ =
      Except.ok (StyleTransferAPI.RoutedResponse.viaGan ⟨[]⟩) ∧
    StyleTransferAPI.post (fun _ s => s) false (fun s c => s ++ c)
        (fun t c => t ++ c) (default_gan_style_names.map (fun n => (n, n)))
        (fun m c => m ++ c) (fun s => s)
        ⟨"style_picasso", "", [], "u", "p"⟩ ≠
      Except.error (TransferError.unknownStyle "style_picasso") := by
  have heval : StyleTransferAPI.post (fun _ s => s) false (fun s c => s ++ c)
      (fun t c => t ++ c) (default_gan_style_names.map (fun n => (n, n)))
      (fun m c => m ++ c) (fun s => s)
      ⟨"style_picasso", "", [], "u", "p"⟩ =
      Except.ok (StyleTransferAPI.RoutedResponse.viaGan ⟨[]⟩) := rfl
  refine ⟨heval, ?_⟩
  rw [heval]
  intro h
  exact Except.noConfusion h

/-- C1 (amended): for every /transfer request, style "style_custom" always
routes to the optimization engine regardless of other fields — producing
its response when at least one content image is present and the Pool
ValueError when the content list is empty, never a pretrained engine and
never an UnknownStyle condition; a style registered in the pretrained
registry selects exactly the engine registered under that identifier; an
unrecognized style fails with an UnknownStyle error PROVIDED the request
carries at least one content image (with an empty content image list the
unrecognized style is silently accepted and an empty image list is
returned, see the counterexample). -/
theorem c1_dispatcher_routing {Timg Tr Gm Fimg : Type}
    (loadImage : Option (Nat × Nat) → String → Timg) (cuda : Bool)
    (init_trainer : Timg → Timg → Tr) (fit_image : Tr → Timg → Fimg)
    (gan_models : List (String × Gm))
    (get_inferred_image : Gm → Timg → Fimg)
    (encode : Fimg → String)
    (json : TransferRequest) :
    (json.style = "style_custom" → json.content_images ≠ [] →
      ∃ exec resp,
        StyleTransferAPI.post loadImage cuda init_trainer fit_image gan_models
          get_inferred_image encode json =
        Except.ok (StyleTransferAPI.RoutedResponse.viaNeural exec resp)) ∧
    (json.style = "style_custom" → json.content_images = [] →
      StyleTransferAPI.post loadImage cuda init_trainer fit_image gan_models
        get_inferred_image encode json =
      Except.error TransferError.poolValueError) ∧
    (∀ model, dictFind gan_models json.style = some model →
      json.style ≠ "style_custom" →
      StyleTransferAPI.post loadImage cuda init_trainer fit_image gan_models
        get_inferred_image encode json =
      Except.ok (StyleTransferAPI.RoutedResponse.viaGan
        (pack_processed_images encode
          (json.content_images.map (fun s =>
            get_inferred_image model (loadImage none s)))))) ∧
    (dictFind gan_models json.style = none →
      json.style ≠ "style_custom" →
      json.content_images ≠ [] →
      StyleTransferAPI.post loadImage cuda init_trainer fit_image gan_models
        get_inferred_image encode json =
      Except.error (TransferError.unknownStyle json.style)) := by
  refine ⟨?_, ?_, ?_, ?_⟩
  · intro hstyle hne
    rcases Nat.lt_or_ge json.content_images.length 2 with hlt | hge
    · have h1 : json.content_images.length = 1 := by
        have hpos := List.length_pos.mpr hne
        omega
      refine ⟨ExecMode.sync,
        pack_processed_images encode
          (json.content_images.map (fun content_image =>
            get_fitted_image init_trainer fit_image
              (loadImage (some (cudaSize cuda)) json.style_image)
              (loadImage (some (cudaSize cuda)) content_image))), ?_⟩
      simp only [StyleTransferAPI.post, if_pos hstyle,
        use_neural_algorithm_singleton loadImage cuda init_trainer fit_image
          encode json h1]
      rfl
    · refine ⟨ExecMode.pooled (min json.content_images.length 3),
        pack_processed_images encode
          (json.content_images.map (fun content_image =>
            get_fitted_image init_trainer fit_image
              (loadImage (some (cudaSize cuda)) json.style_image)
              (loadImage (some (cudaSize cuda)) content_image))), ?_⟩
      simp only [StyleTransferAPI.post, if_pos hstyle,
        use_neural_algorithm_multi loadImage cuda init_trainer fit_image
          encode json hge]
      rfl
  · intro hstyle h0
    simp only [StyleTransferAPI.post, if_pos hstyle,
      use_neural_algorithm_nil loadImage cuda init_trainer fit_image
        encode json h0]
    rfl
  · intro model hm hne
    have hcontents : (extract_original_images loadImage cuda json false).2 =
        json.content_images.map (loadImage none) := by
      simp [extract_original_images]
    simp only [StyleTransferAPI.post, if_neg hne, StyleTransferAPI.use_gan_model,
      hcontents, hm]
    rw [mapM_ok, List.map_map]
    rfl
  · intro hm hne hne2
    obtain ⟨c, rest, hl⟩ := List.exists_cons_of_ne_nil hne2
    have hcontents : (extract_original_images loadImage cuda json false).2 =
        loadImage none c :: rest.map (loadImage none) := by
      simp [extract_original_images, hl]
    simp only [StyleTransferAPI.post, if_neg hne, StyleTransferAPI.use_gan_model,
      hcontents, hm]
    rw [List.mapM_cons]
    rfl

/-- C1 witness: the four routing branches exercised on concrete requests
against the registry [("style_monet", "M")]: custom with an image, custom
with no image (Pool ValueError), registered style, unknown style. -/
theorem c1_dispatcher_routing_witness :
    (∃ exec resp,
      StyleTransferAPI.post (fun _ s => s) false (fun s c => s ++ c)
          (fun t c => t ++ c) [("style_monet", "M")] (fun m c => m ++ c)
          (fun s => s) ⟨"style_custom", "S", ["a"], "u", "p"⟩ =
        Except.ok (StyleTransferAPI.RoutedResponse.viaNeural exec resp)) ∧
    StyleTransferAPI.post (fun _ s => s) false (fun s c => s ++ c)
        (fun t c => t ++ c) [("style_monet", "M")] (fun m c => m ++ c)
        (fun s => s) ⟨"style_custom", "S", [], "u", "p"⟩ =
      Except.error TransferError.poolValueError ∧
    StyleTransferAPI.post (fun _ s => s) false (fun s c => s ++ c)
        (fun t c => t ++ c) [("style_monet", "M")] (fun m c => m ++ c)
        (fun s => s) ⟨"style_monet", "S", ["a"], "u", "p"⟩ =
      Except.ok (StyleTransferAPI.RoutedResponse.viaGan
        (pack_processed_images (fun s => s)
          ((["a"] : List String).map (fun s => "M" ++ s)))) ∧
    StyleTransferAPI.post (fun _ s => s) false (fun s c => s ++ c)
        (fun t c => t ++ c) [("style_monet", "M")] (fun m c => m ++ c)
        (fun s => s) ⟨"style_picasso", "S", ["a"], "u", "p"⟩ =
      Except.error (TransferError.unknownStyle "style_picasso") :=
  ⟨(c1_dispatcher_routing _ _ _ _ _ _ _ _).1 rfl (by decide),
   (c1_dispatcher_routing _ _ _ _ _ _ _ _).2.1 rfl rfl,
   (c1_dispatcher_routing _ _ _ _ _ _ _ _).2.2.1 "M" rfl (by decide),
   (c1_dispatcher_routing _ _ _ _ _ _ _ _).2.2.2 rfl (by decide) (by decide)⟩

/-- C10: on the pretrained path the style image does not interfere with the
response: two /transfer requests with the same registered non-custom style,
the same content images and the same credentials, differing only in the
style_image field, are answered identically (use_gan_model extracts with
with_style=False and never reads style_image). -/
theorem c10_pretrained_path_style_image_noninterference
    {Timg Tr Gm Fimg : Type}
    (users : List (String × String))
    (check_password_hash : String → String → Bool)
    (loadImage : Option (Nat × Nat) → String → Timg) (cuda : Bool)
    (init_trainer : Timg → Timg → Tr) (fit_image : Tr → Timg → Fimg)
    (gan_models : List (String × Gm))
    (get_inferred_image : Gm → Timg → Fimg)
    (encode : Fimg → String)
    (r1 r2 : TransferRequest) (model : Gm)
    (hstyle : r1.style = r2.style)
    (hreg : dictFind gan_models r1.style = some model)
    (hcustom : r1.style ≠ "style_custom")
    (hcontent : r1.content_images = r2.content_images)
    (husername : r1.username = r2.username)
    (hpassword : r1.password = r2.password) :
    transfer_endpoint users check_password_hash loadImage cuda init_trainer
      fit_image gan_models get_inferred_image encode r1 =
    transfer_endpoint users check_password_hash loadImage cuda init_trainer
      fit_image gan_models get_inferred_image encode r2 := by
  obtain ⟨s1, si1, ci1, u1, p1⟩ := r1
  obtain ⟨s2, si2, ci2, u2, p2⟩ := r2
  obtain rfl : s1 = s2 := hstyle
  obtain rfl : ci1 = ci2 := hcontent
  obtain rfl : u1 = u2 := husername
  obtain rfl : p1 = p2 := hpassword
  have hc : s1 ≠ "style_custom" := hcustom
  simp [transfer_endpoint, StyleTransferAPI.post, StyleTransferAPI.use_gan_model,
    extract_original_images, hc]

/-- C10 witness: two concrete authenticated requests differing only in the
style_image field get the same response on the pretrained path. -/
theorem c10_pretrained_path_style_image_noninterference_witness :
    transfer_endpoint [("u", "h")] (fun _ _ => true) (fun _ s => s) false
      (fun s c => s ++ c) (fun t c => t ++ c) [("style_monet", "M")]
      (fun m c => m ++ c) (fun s => s)
      ⟨"style_monet", "STYLE_A", ["a"], "u", "p"⟩ =
    transfer_endpoint [("u", "h")] (fun _ _ => true) (fun _ s => s) false
      (fun s c => s ++ c) (fun t c => t ++ c) [("style_monet", "M")]
      (fun m c => m ++ c) (fun s => s)
      ⟨"style_monet", "STYLE_B", ["a"], "u", "p"⟩ :=
  c10_pretrained_path_style_image_noninterference _ _ _ _ _ _ _ _ _ _ _ "M"
    rfl rfl (by decide) rfl rfl rfl

end ModelApp

namespace BotApp

/-- The collection fold of receive_content_images_handler, generalized over
the accumulator: it appends the last photos of the next messages until the
accumulator reaches max_images, hence exactly the first
(max_images - acc.length) messages contribute, in arrival order. -/
theorem collect_content_images_go {Img : Type} (l : List (Msg Img)) :
    ∀ acc : List Img, (∀ m ∈ l, m.photo ≠ []) →
      List.foldl
        (fun acc msg =>
          match msg.photo.getLast? with
          | some p =>
            if acc.length < StartStyleTransferForm.max_images then acc ++ [p]
            else acc
          | none => acc)
        acc l =
      acc ++ (l.take (StartStyleTransferForm.max_images - acc.length)).filterMap
        (fun m => m.photo.getLast?) := by
  induction l with
  | nil => intro acc _; simp
  | cons m rest ih =>
    intro acc h
    have hm : m.photo ≠ [] := h m (by simp)
    obtain ⟨p, hp⟩ : ∃ p, m.photo.getLast? = some p := by
      rcases hph : m.photo.getLast? with _ | p
      · rw [List.getLast?_eq_none_iff] at hph
        exact absurd hph hm
      · exact ⟨p, rfl⟩
    have hrest : ∀ m' ∈ rest, m'.photo ≠ [] := fun m' hm' => h m' (by simp [hm'])
    by_cases hlen : acc.length < StartStyleTransferForm.max_images
    · have hsub : StartStyleTransferForm.max_images - acc.length =
          (StartStyleTransferForm.max_images - (acc ++ [p]).length) + 1 := by
        simp only [List.length_append, List.length_cons, List.length_nil]
        omega
      simp only [List.foldl_cons, hp, if_pos hlen]
      rw [ih (acc ++ [p]) hrest, hsub, List.take_succ_cons,
        List.filterMap_cons, hp, List.append_assoc]
      rfl
    · have hsub : StartStyleTransferForm.max_images - acc.length = 0 := by omega
      simp only [List.foldl_cons, hp, if_neg hlen]
      rw [ih acc hrest, hsub]
      simp [hsub]

/-- filterMap of an everywhere-defined partial function preserves length. -/
theorem length_filterMap_all_some {A B : Type} (g : A → Option B) :
    ∀ l : List A, (∀ a ∈ l, (g a).isSome) → (l.filterMap g).length = l.length := by
  intro l
  induction l with
  | nil => intro _; rfl
  | cons a rest ih =>
    intro h
    have ha := h a (by simp)
    rcases hg : g a with _ | b
    · rw [hg] at ha; simp at ha
    · simp only [List.filterMap_cons, hg, List.length_cons]
      rw [ih (fun a' ha' => h a' (by simp [ha']))]

/-- The collection loop stores the last photos of the first max_images
messages of the group, in arrival order, when every message carries a
photo. -/
theorem collect_content_images_eq {Img : Type} (media_group : List (Msg Img))
    (h : ∀ m ∈ media_group, m.photo ≠ []) :
    collect_content_images media_group =
      (media_group.take 3).filterMap (fun m => m.photo.getLast?) := by
  have hg := collect_content_images_go media_group [] h
  simpa [collect_content_images, StartStyleTransferForm.max_images] using hg

/-- The fields of a run of the media-group content handler that do not
depend on the remote outcome: stored data, the state set before the request
is issued, the issued request and the unconditional teardown. -/
theorem receive_content_images_handler_run {Img : Type}
    (media_group : List (Msg Img)) (data0 : SessionData Img)
    (remote : RemoteOutcome Img) (stateAtReturn : Option ConvState) :
    (receive_content_images_handler media_group data0 remote stateAtReturn).data =
      { data0 with content_images := collect_content_images media_group } ∧
    (receive_content_images_handler media_group data0 remote stateAtReturn).stateAfterStore =
      some ConvState.await_model_response ∧
    (receive_content_images_handler media_group data0 remote stateAtReturn).request =
      some { style := data0.style, style_image := data0.style_image,
             content_images := collect_content_images media_group } ∧
    (receive_content_images_handler media_group data0 remote stateAtReturn).finished = true := by
  cases remote <;>
    simp [receive_content_images_handler, StartStyleTransferForm.next, apply_ite]

/-- C2: a media-group batch of N photo messages arriving in state
SendContentImages stores exactly min(3, N) content images, in arrival order
(the last resolution of each of the first three messages), advances the
form to AwaitModelResponse and issues the remote inference request with
exactly those images within the same transition. -/
theorem c2_media_group_batch_collection {Img : Type}
    (media_group : List (Msg Img)) (data0 : SessionData Img)
    (remote : RemoteOutcome Img) (stateAtReturn : Option ConvState)
    (hphotos : ∀ m ∈ media_group, m.photo ≠ []) :
    (receive_content_images_handler media_group data0 remote stateAtReturn).data.content_images =
      (media_group.take 3).filterMap (fun m => m.photo.getLast?) ∧
    (receive_content_images_handler media_group data0 remote stateAtReturn).data.content_images.length =
      min 3 media_group.length ∧
    (receive_content_images_handler media_group data0 remote stateAtReturn).stateAfterStore =
      some ConvState.await_model_response ∧
    (receive_content_images_handler media_group data0 remote stateAtReturn).request =
      some { style := data0.style, style_image := data0.style_image,
             content_images :=
               (media_group.take 3).filterMap (fun m => m.photo.getLast?) } := by
  obtain ⟨hdata, hstate, hreq, _⟩ :=
    receive_content_images_handler_run media_group data0 remote stateAtReturn
  have hcoll := collect_content_images_eq media_group hphotos
  have hlen : ((media_group.take 3).filterMap (fun m => m.photo.getLast?)).length =
      min 3 media_group.length := by
    rw [length_filterMap_all_some]
    · simp [List.length_take]
    · intro m hm
      have hmem : m ∈ media_group := List.mem_of_mem_take hm
      have := hphotos m hmem
      rcases hph : m.photo.getLast? with _ | p
      · rw [List.getLast?_eq_none_iff] at hph
        exact absurd hph this
      · simp
  refine ⟨?_, ?_, hstate, ?_⟩
  · rw [hdata]
    exact hcoll
  · rw [hdata]
    simpa [hcoll] using hlen
  · rw [hreq, hcoll]

/-- C2 witness: a four-photo media group stores exactly the first three
photos in arrival order, moves to AwaitModelResponse and issues the request
with them. -/
theorem c2_media_group_batch_collection_witness :
    (receive_content_images_handler
        ([⟨[1]⟩, ⟨[2]⟩, ⟨[3]⟩, ⟨[4]⟩] : List (Msg Nat)) ⟨"style_custom", some 9, []⟩
        (RemoteOutcome.ok []) none).data.content_images =
      (([⟨[1]⟩, ⟨[2]⟩, ⟨[3]⟩, ⟨[4]⟩] : List (Msg Nat)).take 3).filterMap
        (fun m => m.photo.getLast?) ∧
    (receive_content_images_handler
        ([⟨[1]⟩, ⟨[2]⟩, ⟨[3]⟩, ⟨[4]⟩] : List (Msg Nat)) ⟨"style_custom", some 9, []⟩
        (RemoteOutcome.ok []) none).data.content_images.length =
      min 3 ([⟨[1]⟩, ⟨[2]⟩, ⟨[3]⟩, ⟨[4]⟩] : List (Msg Nat)).length ∧
    (receive_content_images_handler
        ([⟨[1]⟩, ⟨[2]⟩, ⟨[3]⟩, ⟨[4]⟩] : List (Msg Nat)) ⟨"style_custom", some 9, []⟩
        (RemoteOutcome.ok []) none).stateAfterStore =
      some ConvState.await_model_response ∧
    (receive_content_images_handler
        ([⟨[1]⟩, ⟨[2]⟩, ⟨[3]⟩, ⟨[4]⟩] : List (Msg Nat)) ⟨"style_custom", some 9, []⟩
        (RemoteOutcome.ok []) none).request =
      some { style := "style_custom", style_image := some 9,
             content_images :=
               (([⟨[1]⟩, ⟨[2]⟩, ⟨[3]⟩, ⟨[4]⟩] : List (Msg Nat)).take 3).filterMap
                 (fun m => m.photo.getLast?) } :=
  c2_media_group_batch_collection _ _ _ _ (by decide)

/-- C7: session teardown is unconditional: whatever the remote call
produced (result, timeout, connection error or any other exception) and
whatever state the session is in when it returns, both content-image
handlers run state.finish() in their finally block. -/
theorem c7_unconditional_session_teardown {Img : Type}
    (message : Msg Img) (media_group : List (Msg Img))
    (data0 : SessionData Img) (remote : RemoteOutcome Img)
    (stateAtReturn : Option ConvState) :
    (receive_content_image_handler message data0 remote stateAtReturn).finished = true ∧
    (receive_content_images_handler media_group data0 remote stateAtReturn).finished = true := by
  constructor <;>
    (cases remote <;>
      simp [receive_content_image_handler, receive_content_images_handler,
        apply_ite])

/-- C8: the stale-state guard: when the session state observed after the
remote call returned is no longer AwaitModelResponse, neither handler sends
the "Here you are!" notice nor any photo; the computed result is
discarded. -/
theorem c8_stale_state_guard {Img : Type}
    (message : Msg Img) (media_group : List (Msg Img))
    (data0 : SessionData Img) (processed_images : List Img)
    (stateAtReturn : Option ConvState)
    (hstale : stateAtReturn ≠ some ConvState.await_model_response) :
    (receive_content_image_handler message data0
        (RemoteOutcome.ok processed_images) stateAtReturn).hereYouAreNotice = false ∧
    (receive_content_image_handler message data0
        (RemoteOutcome.ok processed_images) stateAtReturn).delivered = [] ∧
    (receive_content_images_handler media_group data0
        (RemoteOutcome.ok processed_images) stateAtReturn).hereYouAreNotice = false ∧
    (receive_content_images_handler media_group data0
        (RemoteOutcome.ok processed_images) stateAtReturn).delivered = [] := by
  simp [receive_content_image_handler, receive_content_images_handler, hstale]

/-- C8 witness: a cancellation finished the session (state None) while the
call was in flight; the computed images are not delivered. -/
theorem c8_stale_state_guard_witness :
    (receive_content_image_handler (⟨[1]⟩ : Msg Nat) ⟨"style_monet", none, []⟩
        (RemoteOutcome.ok [7]) none).hereYouAreNotice = false ∧
    (receive_content_image_handler (⟨[1]⟩ : Msg Nat) ⟨"style_monet", none, []⟩
        (RemoteOutcome.ok [7]) none).delivered = [] ∧
    (receive_content_images_handler ([⟨[1]⟩, ⟨[2]⟩] : List (Msg Nat))
        ⟨"style_monet", none, []⟩ (RemoteOutcome.ok [7, 8]) none).hereYouAreNotice = false ∧
    (receive_content_images_handler ([⟨[1]⟩, ⟨[2]⟩] : List (Msg Nat))
        ⟨"style_monet", none, []⟩ (RemoteOutcome.ok [7, 8]) none).delivered = [] :=
  c8_stale_state_guard _ _ _ _ none (by decide)

end BotApp

namespace BotApp

/-- dict lookup distributes over concatenation of the underlying
association lists. -/
theorem dictFind_append {V : Type} (a b : List (String × V)) (k : String) :
    ModelApp.dictFind (a ++ b) k =
      match ModelApp.dictFind a k with
      | some v => some v
      | none => ModelApp.dictFind b k := by
  induction a with
  | nil => rfl
  | cons kv rest ih =>
    obtain ⟨k', v⟩ := kv
    by_cases h : k' = k <;> simp [ModelApp.dictFind, h, ih]

/-- Erasing a key that no entry carries leaves the buffer unchanged. -/
theorem dictErase_of_not_mem (d : List (String × List GMsg)) (k : String)
    (h : ∀ kv ∈ d, kv.1 ≠ k) : dictErase d k = d := by
  induction d with
  | nil => rfl
  | cons kv rest ih =>
    have hk := h kv (by simp)
    simp only [dictErase, List.filter_cons]
    rw [if_pos (by simpa using hk)]
    have := ih (fun kv' hkv' => h kv' (by simp [hkv']))
    simpa [dictErase] using this

/-- Arrivals for an already-open group id append to the entry and are
cancelled: running the remaining same-group arrivals from a state whose
buffer is exactly the open entry extends that entry and the cancelled list
in arrival order, and touches nothing else. -/
theorem aggRun_shared_arrivals (g : String) :
    ∀ (rest : List GMsg) (acc cancelled singles : List GMsg)
      (batches : List (List GMsg)),
      (∀ m ∈ rest, m.media_group_id = some g) →
      List.foldl aggStep ⟨[(g, acc)], batches, singles, cancelled⟩
          (rest.map AggEvent.arrive) =
        ⟨[(g, acc ++ rest)], batches, singles, cancelled ++ rest⟩ := by
  intro rest
  induction rest with
  | nil => intro acc cancelled singles batches _; simp
  | cons m rest ih =>
    intro acc cancelled singles batches h
    have hm : m.media_group_id = some g := h m (by simp)
    have hstep : aggStep ⟨[(g, acc)], batches, singles, cancelled⟩
        (AggEvent.arrive m) =
        ⟨[(g, acc ++ [m])], batches, singles, cancelled ++ [m]⟩ := by
      simp [aggStep, hm, ModelApp.dictFind, dictAppend]
    simp only [List.map_cons, List.foldl_cons, hstep]
    rw [ih (acc ++ [m]) (cancelled ++ [m]) singles batches
      (fun m' hm' => h m' (by simp [hm']))]
    simp

/-- Arrivals whose group ids are fresh for the buffer and pairwise distinct
each open their own entry, in arrival order. -/
theorem aggRun_distinct_arrivals :
    ∀ (msgs : List GMsg) (pre : List (String × List GMsg))
      (batches : List (List GMsg)) (singles cancelled : List GMsg),
      (∀ m ∈ msgs, m.media_group_id = some (gidD m)) →
      (∀ m ∈ msgs, ModelApp.dictFind pre (gidD m) = none) →
      (msgs.map gidD).Nodup →
      List.foldl aggStep ⟨pre, batches, singles, cancelled⟩
          (msgs.map AggEvent.arrive) =
        ⟨pre ++ msgs.map (fun m => (gidD m, [m])), batches, singles, cancelled⟩ := by
  intro msgs
  induction msgs with
  | nil => intro pre batches singles cancelled _ _ _; simp
  | cons m rest ih =>
    intro pre batches singles cancelled hsome hfresh hnd
    have hm : m.media_group_id = some (gidD m) := hsome m (by simp)
    have hstep : aggStep ⟨pre, batches, singles, cancelled⟩ (AggEvent.arrive m) =
        ⟨pre ++ [(gidD m, [m])], batches, singles, cancelled⟩ := by
      simp [aggStep, hm, hfresh m (by simp)]
    simp only [List.map_cons, List.foldl_cons, hstep]
    have hpair : (∀ x ∈ rest, ¬ gidD x = gidD m) ∧ (rest.map gidD).Nodup := by
      simpa using hnd
    have hnd' : (rest.map gidD).Nodup := hpair.2
    have hne : ∀ m' ∈ rest, gidD m' ≠ gidD m := fun m' hm' => hpair.1 m' hm'
    rw [ih (pre ++ [(gidD m, [m])]) batches singles cancelled
      (fun m' hm' => hsome m' (by simp [hm']))
      (fun m' hm' => by
        rw [dictFind_append, hfresh m' (by simp [hm'])]
        simp [ModelApp.dictFind, (hne m' hm').symm]) hnd']
    simp

/-- Resuming each representative in arrival order, over a buffer holding
one singleton entry per message with pairwise distinct keys, seals one
batch per entry in order and empties the buffer. -/
theorem aggRun_distinct_resumes :
    ∀ (msgs : List GMsg) (batches : List (List GMsg)) (singles cancelled : List GMsg),
      (msgs.map gidD).Nodup →
      List.foldl aggStep
          ⟨msgs.map (fun m => (gidD m, [m])), batches, singles, cancelled⟩
          (msgs.map (fun m => AggEvent.resume (gidD m))) =
        ⟨[], batches ++ msgs.map (fun m => [m]), singles, cancelled⟩ := by
  intro msgs
  induction msgs with
  | nil => intro batches singles cancelled _; simp
  | cons m rest ih =>
    intro batches singles cancelled hnd
    have hpair : (∀ x ∈ rest, ¬ gidD x = gidD m) ∧ (rest.map gidD).Nodup := by
      simpa using hnd
    have hne : ∀ m' ∈ rest, gidD m' ≠ gidD m := fun m' hm' => hpair.1 m' hm'
    have hfind : ModelApp.dictFind
        ((gidD m, [m]) :: rest.map (fun m' => (gidD m', [m']))) (gidD m) =
        some [m] := by
      simp [ModelApp.dictFind]
    have herase : dictErase
        ((gidD m, [m]) :: rest.map (fun m' => (gidD m', [m']))) (gidD m) =
        rest.map (fun m' => (gidD m', [m'])) := by
      simp only [dictErase, List.filter_cons]
      rw [if_neg (by simp)]
      have : ∀ kv ∈ rest.map (fun m' => (gidD m', [m'])), kv.1 ≠ gidD m := by
        intro kv hkv
        obtain ⟨m', hm', rfl⟩ := List.mem_map.mp hkv
        exact hne m' hm'
      simpa [dictErase] using dictErase_of_not_mem _ _ this
    have hstep : aggStep
        ⟨(gidD m, [m]) :: rest.map (fun m' => (gidD m', [m'])), batches,
          singles, cancelled⟩ (AggEvent.resume (gidD m)) =
        ⟨rest.map (fun m' => (gidD m', [m'])), batches ++ [[m]], singles,
          cancelled⟩ := by
      simp only [aggStep, hfind, herase]
    simp only [List.map_cons, List.foldl_cons, hstep]
    rw [ih (batches ++ [[m]]) singles cancelled hpair.2]
    simp

end BotApp

namespace BotApp

/-- C3: Media-Group Aggregator: N messages sharing one group id, all
arriving within the latency window of the first (so before its resume
event), produce exactly one downstream batch containing all N messages in
arrival order, every non-representative is cancelled, and the buffer is
cleaned up; N messages with pairwise distinct group ids produce N
independent singleton batches, in order. -/
theorem c3_media_group_aggregator (msgs : List GMsg) (g : String) :
    (msgs ≠ [] → (∀ m ∈ msgs, m.media_group_id = some g) →
      aggRun (msgs.map AggEvent.arrive ++ [AggEvent.resume g]) =
        { media_group_data := [], batches := [msgs], singles := [],
          cancelled := msgs.tail }) ∧
    ((∀ m ∈ msgs, m.media_group_id = some (gidD m)) →
      (msgs.map gidD).Nodup →
      aggRun (msgs.map AggEvent.arrive ++
          msgs.map (fun m => AggEvent.resume (gidD m))) =
        { media_group_data := [], batches := msgs.map (fun m => [m]),
          singles := [], cancelled := [] }) := by
  constructor
  · intro hne hg
    obtain ⟨m, rest, rfl⟩ := List.exists_cons_of_ne_nil hne
    have hm : m.media_group_id = some g := hg m (by simp)
    unfold aggRun
    rw [List.foldl_append]
    have hstep : aggStep ⟨[], [], [], []⟩ (AggEvent.arrive m) =
        ⟨[(g, [m])], [], [], []⟩ := by
      simp [aggStep, hm, ModelApp.dictFind]
    simp only [List.map_cons, List.foldl_cons, hstep]
    rw [aggRun_shared_arrivals g rest [m] [] [] []
      (fun m' hm' => hg m' (by simp [hm']))]
    have hfind : ModelApp.dictFind [(g, m :: rest)] g = some (m :: rest) := by
      simp [ModelApp.dictFind]
    have herase : dictErase [(g, m :: rest)] g = [] := by
      simp [dictErase]
    simp [aggStep, hfind, herase]
  · intro hsome hnd
    unfold aggRun
    rw [List.foldl_append]
    rw [aggRun_distinct_arrivals msgs [] [] [] [] hsome
      (fun m _ => rfl) hnd]
    rw [show (([] : List (String × List GMsg)) ++
        msgs.map (fun m => (gidD m, [m]))) = msgs.map (fun m => (gidD m, [m]))
      from List.nil_append _]
    rw [aggRun_distinct_resumes msgs [] [] [] hnd]
    rfl

/-- C3 witness: three messages sharing group id "g" yield one batch of all
three with the two later ones cancelled; two messages with distinct group
ids yield two singleton batches. -/
theorem c3_media_group_aggregator_witness :
    aggRun (([⟨1, some "g"⟩, ⟨2, some "g"⟩, ⟨3, some "g"⟩] : List GMsg).map
        AggEvent.arrive ++ [AggEvent.resume "g"]) =
      { media_group_data := [],
        batches := [[⟨1, some "g"⟩, ⟨2, some "g"⟩, ⟨3, some "g"⟩]],
        singles := [],
        cancelled := ([⟨1, some "g"⟩, ⟨2, some "g"⟩, ⟨3, some "g"⟩] : List GMsg).tail } ∧
    aggRun (([⟨1, some "a"⟩, ⟨2, some "b"⟩] : List GMsg).map AggEvent.arrive ++
        ([⟨1, some "a"⟩, ⟨2, some "b"⟩] : List GMsg).map
          (fun m => AggEvent.resume (gidD m))) =
      { media_group_data := [],
        batches := ([⟨1, some "a"⟩, ⟨2, some "b"⟩] : List GMsg).map (fun m => [m]),
        singles := [], cancelled := [] } :=
  ⟨(c3_media_group_aggregator [⟨1, some "g"⟩, ⟨2, some "g"⟩, ⟨3, some "g"⟩] "g").1
      (by decide) (by decide),
   (c3_media_group_aggregator [⟨1, some "a"⟩, ⟨2, some "b"⟩] "g").2
      (by decide) (by decide)⟩

end BotApp

namespace Base64

/-- Decoding inverts encoding on every 6-bit value. -/
theorem b64val_b64char_fin : ∀ n : Fin 64, b64val (b64char n.val) = n.val := by
  decide

/-- Decoding inverts encoding on every 6-bit value (Nat form). -/
theorem b64val_b64char (n : Nat) (h : n < 64) : b64val (b64char n) = n :=
  b64val_b64char_fin ⟨n, h⟩

/-- Every encoded character is an alphabet character. -/
theorem b64char_mem (n : Nat) : b64char n ∈ alphabet := by
  unfold b64char
  rcases hx : alphabet.get? n with _ | c
  · decide
  · simpa using List.get?_mem hx

/-- No encoded character is the padding character. -/
theorem b64char_ne_pad (n : Nat) : b64char n ≠ '=' := by
  intro hEq
  have hmem := b64char_mem n
  rw [hEq] at hmem
  revert hmem
  decide

/-- Encoded characters survive the decoder's filter. -/
theorem keep_b64char (n : Nat) : keepChar (b64char n) = true := by
  unfold keepChar
  rw [show alphabet.contains (b64char n) = true from
    List.elem_eq_true_of_mem (b64char_mem n)]
  rfl

/-- Quad decoding inverts chunk encoding on byte lists. -/
theorem decode_encodeChunks : ∀ bs : List Nat, (∀ b ∈ bs, b < 256) →
    decodeQuads (encodeChunks bs) = bs
  | [], _ => rfl
  | [x], h => by
    have hx : x < 256 := h x (by simp)
    simp only [encodeChunks, decodeQuads]
    rw [if_pos True.intro, b64val_b64char _ (by omega), b64val_b64char _ (by omega)]
    simp only [List.cons.injEq, and_true]
    omega
  | [x, y], h => by
    have hx : x < 256 := h x (by simp)
    have hy : y < 256 := h y (by simp)
    simp only [encodeChunks, decodeQuads]
    rw [if_neg (b64char_ne_pad _), if_pos True.intro,
      b64val_b64char _ (by omega), b64val_b64char _ (by omega),
      b64val_b64char _ (by omega)]
    simp only [List.cons.injEq, and_true]
    omega
  | x :: y :: z :: rest, h => by
    have hx : x < 256 := h x (by simp)
    have hy : y < 256 := h y (by simp)
    have hz : z < 256 := h z (by simp)
    have ih := decode_encodeChunks rest (fun b hb => h b (by simp [hb]))
    simp only [encodeChunks, decodeQuads]
    rw [if_neg (b64char_ne_pad _), if_neg (b64char_ne_pad _),
      b64val_b64char _ (by omega), b64val_b64char _ (by omega),
      b64val_b64char _ (by omega), b64val_b64char _ (by omega), ih]
    simp only [List.cons.injEq]
    exact ⟨by omega, by omega, by omega, trivial⟩

/-- Chunk encoding distributes over concatenation at 3-byte boundaries. -/
theorem encodeChunks_append : ∀ (a b : List Nat), a.length % 3 = 0 →
    encodeChunks (a ++ b) = encodeChunks a ++ encodeChunks b
  | [], _, _ => rfl
  | [x], b, h => by simp at h
  | [x, y], b, h => by simp at h
  | x :: y :: z :: rest, b, h => by
    have h' : rest.length % 3 = 0 := by
      simp only [List.length_cons] at h
      omega
    simp only [List.cons_append, encodeChunks, List.append_eq]
    rw [encodeChunks_append rest b h']

/-- Every character produced by the chunk encoder survives the filter. -/
theorem keep_encodeChunks : ∀ bs : List Nat, ∀ c ∈ encodeChunks bs,
    keepChar c = true
  | [], c, hc => by simp [encodeChunks] at hc
  | [x], c, hc => by
    simp only [encodeChunks, List.mem_cons, List.not_mem_nil, or_false] at hc
    rcases hc with rfl | rfl | rfl | rfl
    · exact keep_b64char _
    · exact keep_b64char _
    · decide
    · decide
  | [x, y], c, hc => by
    simp only [encodeChunks, List.mem_cons, List.not_mem_nil, or_false] at hc
    rcases hc with rfl | rfl | rfl | rfl
    · exact keep_b64char _
    · exact keep_b64char _
    · exact keep_b64char _
    · decide
  | x :: y :: z :: rest, c, hc => by
    simp only [encodeChunks, List.mem_cons] at hc
    rcases hc with rfl | rfl | rfl | rfl | hc
    · exact keep_b64char _
    · exact keep_b64char _
    · exact keep_b64char _
    · exact keep_b64char _
    · exact keep_encodeChunks rest c hc

/-- Filtering the line-structured output of encodebytes recovers exactly
the chunk encoding of the whole input: the inserted newlines are dropped
and the 57-byte line splits fall on 3-byte boundaries. -/
theorem filter_encodebytes (bs : List Nat) :
    (encodebytes bs).filter keepChar = encodeChunks bs := by
  induction bs using encodebytes.induct with
  | case1 =>
    simp [encodebytes, encodeChunks]
  | case2 bs hne ih =>
    unfold encodebytes
    rw [dif_neg hne, List.filter_append,
      List.filter_eq_self.mpr (fun c hc => keep_encodeChunks (bs.take 57) c hc)]
    have hnl : keepChar '\n' = false := by decide
    simp only [List.filter_cons, hnl, Bool.false_eq_true, if_false]
    rw [ih]
    by_cases hle : bs.length ≤ 57
    · rw [List.take_of_length_le hle, List.drop_eq_nil_of_le hle]
      simp [encodeChunks]
    · rw [← encodeChunks_append _ _ (by
        simp only [List.length_take]
        omega), List.take_append_drop]

/-- Python's decodebytes inverts encodebytes on byte lists. -/
theorem decodebytes_encodebytes (bs : List Nat) (h : ∀ b ∈ bs, b < 256) :
    decodebytes (encodebytes bs) = bs := by
  unfold decodebytes
  rw [filter_encodebytes, decode_encodeChunks bs h]

end Base64

/-- C9: base64 encode/decode round trip: for every byte buffer b,
base64_to_image(image_to_base64(b)) holds exactly the byte contents of b;
image_to_base64 reads from position 0 regardless of the buffer's current
position; and the helper pair behaves identically in the bot and the model
application. -/
theorem c9_base64_round_trip (buf : ByteBuf) (h : ∀ b ∈ buf.data, b < 256) :
    (BotApp.Images.base64_to_image (BotApp.Images.image_to_base64 buf)).data =
      buf.data ∧
    (ModelApp.Images.base64_to_image (ModelApp.Images.image_to_base64 buf)).data =
      buf.data ∧
    BotApp.Images.image_to_base64 buf =
      BotApp.Images.image_to_base64 ⟨buf.data, 0⟩ ∧
    ModelApp.Images.image_to_base64 buf =
      ModelApp.Images.image_to_base64 ⟨buf.data, 0⟩ ∧
    BotApp.Images.image_to_base64 buf = ModelApp.Images.image_to_base64 buf := by
  refine ⟨?_, ?_, rfl, rfl, rfl⟩ <;>
    exact Base64.decodebytes_encodebytes buf.data h

/-- C9 witness: a 60-byte buffer (so the encoded form spans two lines) with
a nonzero seek position round-trips to its exact byte contents in both
applications. -/
theorem c9_base64_round_trip_witness :
    (BotApp.Images.base64_to_image (BotApp.Images.image_to_base64
        ⟨List.range 60, 7⟩)).data = List.range 60 ∧
    (ModelApp.Images.base64_to_image (ModelApp.Images.image_to_base64
        ⟨List.range 60, 7⟩)).data = List.range 60 ∧
    BotApp.Images.image_to_base64 ⟨List.range 60, 7⟩ =
      BotApp.Images.image_to_base64 ⟨List.range 60, 0⟩ :=
  ⟨(c9_base64_round_trip ⟨List.range 60, 7⟩ (by decide)).1,
   (c9_base64_round_trip ⟨List.range 60, 7⟩ (by decide)).2.1,
   (c9_base64_round_trip ⟨List.range 60, 7⟩ (by decide)).2.2.1⟩

namespace BotApp.Throttling

/-- Folding the throttle over arrivals each within rate of the previous
accumulates one violation per arrival and keeps the last timestamp. -/
theorem foldl_throttleCall_chain (rate : ℚ) :
    ∀ (rest : List ℚ) (prev : ℚ) (k : Nat),
      List.Chain (fun a b => b - a < rate) prev rest →
      rest.foldl (fun b t => (throttleCall rate b t).1)
          { lastCall := some prev, exceededCount := k } =
        { lastCall := some (rest.getLastD prev),
          exceededCount := k + rest.length } := by
  intro rest
  induction rest with
  | nil => intro prev k _; simp
  | cons t ts ih =>
    intro prev k hchain
    rcases List.chain_cons.mp hchain with ⟨h1, h2⟩
    have hb : (throttleCall rate { lastCall := some prev, exceededCount := k } t).1 =
        { lastCall := some t, exceededCount := k + 1 } := by
      simp [throttleCall, h1]
    simp only [List.foldl_cons, hb]
    rw [ih t (k + 1) h2]
    simp only [List.getLastD_cons, List.length_cons, Bucket.mk.injEq, true_and,
      and_true, and_self]
    omega

/-- A maximal run of consecutive violations from an established record:
each arrival is deleted and cancelled, notified while the count is at most
2, and schedules its unban check one rate after the previous arrival. -/
theorem throttleRun_chain (rate : ℚ) :
    ∀ (rest : List ℚ) (prev : ℚ) (k : Nat),
      List.Chain (fun a b => b - a < rate) prev rest →
      throttleRun rate { lastCall := some prev, exceededCount := k } rest =
        ({ lastCall := some (rest.getLastD prev),
           exceededCount := k + rest.length },
         expectedViolOutcomes rate prev k rest) := by
  intro rest
  induction rest with
  | nil => intro prev k _; simp [throttleRun, expectedViolOutcomes]
  | cons t ts ih =>
    intro prev k hchain
    rcases List.chain_cons.mp hchain with ⟨h1, h2⟩
    have harith : t + (rate - (t - prev)) = prev + rate := by ring
    have hstep : on_process_message rate false
        { lastCall := some prev, exceededCount := k } t =
        ({ lastCall := some t, exceededCount := k + 1 },
         { reachedHandler := false, deleted := true,
           bannedNotice := decide (k + 1 ≤ 2),
           unbanCheck := some (prev + rate, k + 1) }) := by
      simp [on_process_message, throttleCall, h1, harith]
    simp only [throttleRun, hstep]
    rw [ih t (k + 1) h2]
    simp only [expectedViolOutcomes, List.getLastD_cons, List.length_cons,
      Prod.mk.injEq, Bucket.mk.injEq, List.cons.injEq, true_and, and_true,
      and_self]
    omega

/-- Every violation outcome is deleted and never reaches the handler. -/
theorem expectedViol_mem (rate : ℚ) :
    ∀ (ts : List ℚ) (prev : ℚ) (k : Nat),
      ∀ o ∈ expectedViolOutcomes rate prev k ts,
        o.reachedHandler = false ∧ o.deleted = true := by
  intro ts
  induction ts with
  | nil => intro prev k o ho; simp [expectedViolOutcomes] at ho
  | cons t ts ih =>
    intro prev k o ho
    simp only [expectedViolOutcomes, List.mem_cons] at ho
    rcases ho with rfl | hmem
    · exact ⟨rfl, rfl⟩
    · exact ih t (k + 1) o hmem

/-- The banned notices of a violation run: the i-th violation (0-based i,
running count k + i + 1) is notified exactly while the count is at most
2. -/
theorem expectedViol_banned_map (rate : ℚ) :
    ∀ (ts : List ℚ) (prev : ℚ) (k : Nat),
      (expectedViolOutcomes rate prev k ts).map (fun o => o.bannedNotice) =
        (List.range ts.length).map (fun i => decide (k + i + 1 ≤ 2)) := by
  intro ts
  induction ts with
  | nil => intro prev k; rfl
  | cons t ts ih =>
    intro prev k
    simp only [expectedViolOutcomes, List.map_cons, List.length_cons,
      List.range_succ_eq_map, List.map_map, List.cons.injEq]
    constructor
    · simp
    · rw [ih t (k + 1)]
      apply List.map_congr_left
      intro i _
      simp only [Function.comp]
      exact decide_eq_decide.mpr (by omega)

/-- The exceeded count read back at a wake not earlier than every arrival
is the total number of violations of the run. -/
theorem exceededAt_all (rate t0 : ℚ) (rest : List ℚ) (wake : ℚ)
    (hchain : List.Chain (fun a b => b - a < rate) t0 rest)
    (hle : ∀ t ∈ t0 :: rest, t ≤ wake) :
    exceededAt rate (t0 :: rest) wake = rest.length := by
  unfold exceededAt
  have hfilter : (t0 :: rest).filter (fun t => decide (t ≤ wake)) = t0 :: rest := by
    apply List.filter_eq_self.mpr
    intro a ha
    simpa using hle a ha
  rw [hfilter]
  simp only [List.foldl_cons]
  have h0 : (throttleCall rate { lastCall := none, exceededCount := 0 } t0).1 =
      { lastCall := some t0, exceededCount := 0 } := by
    simp [throttleCall]
  rw [h0, foldl_throttleCall_chain rate rest t0 0 hchain]
  simp

/-- Counting the unban notices of a violation run when every scheduled
check reads back the same total count: exactly the violation whose snapshot
equals that total fires. -/
theorem expectedViol_countP_unbanned (rate : ℚ) (times : List ℚ) (total : Nat) :
    ∀ (ts : List ℚ) (prev : ℚ) (k : Nat),
      (∀ p ∈ prev :: ts, exceededAt rate times (p + rate) = total) →
      (expectedViolOutcomes rate prev k ts).countP
          (fun o => unbannedNotice rate times o.unbanCheck) =
        if k < total ∧ total ≤ k + ts.length then 1 else 0 := by
  intro ts
  induction ts with
  | nil =>
    intro prev k _
    simp only [expectedViolOutcomes, List.countP_nil, List.length_nil]
    rw [if_neg (by omega)]
  | cons t ts ih =>
    intro prev k hw
    have hhead : exceededAt rate times (prev + rate) = total := hw prev (by simp)
    have hrec := ih t (k + 1) (fun p hp => hw p (by simp [hp]))
    simp only [expectedViolOutcomes, List.countP_cons, List.length_cons, hrec]
    have hnot : unbannedNotice rate times (some (prev + rate, k + 1)) =
        decide (total = k + 1) := by
      simp only [unbannedNotice, hhead]
      by_cases htot : total = k + 1
      · simp [htot]
      · simp [htot]
    rw [hnot]
    by_cases htot : total = k + 1
    · have h1 : (if k + 1 < total ∧ total ≤ k + 1 + ts.length then 1 else 0) = 0 := by
        rw [if_neg (by omega)]
      have h2 : (if k < total ∧ total ≤ k + (ts.length + 1) then 1 else 0) = 1 := by
        rw [if_pos (by omega)]
      rw [h1, h2]
      simp [htot]
    · have h1 : (if k + 1 < total ∧ total ≤ k + 1 + ts.length then 1 else 0) =
          (if k < total ∧ total ≤ k + (ts.length + 1) then 1 else 0) := by
        by_cases hc : k + 1 < total ∧ total ≤ k + 1 + ts.length
        · rw [if_pos hc, if_pos (by omega)]
        · rw [if_neg hc, if_neg (by omega)]
      rw [h1]
      simp [htot]

end BotApp.Throttling

namespace BotApp.Throttling

/-- C6: Rate Limiter notifications: for a maximal run of consecutive
throttle violations by one sender on one handler (each message arriving
within the configured interval of the previous one, after an initial clean
message), every violating message is deleted and never reaches the
handler; the "banned" notice is sent on violations 1 and 2 only and never
again during the run; and for a burst whose violations all fall within one
interval of the initial message, the "unbanned" notice fires exactly once
— at the end of the one cooldown that passes with no further violation. -/
theorem c6_rate_limiter_notifications (rate t0 : ℚ) (rest : List ℚ)
    (hchain : List.Chain (fun a b => a < b ∧ b - a < rate) t0 rest) :
    (throttleRun rate { lastCall := none, exceededCount := 0 } (t0 :: rest)).2 =
      { reachedHandler := true, deleted := false, bannedNotice := false,
        unbanCheck := none } :: expectedViolOutcomes rate t0 0 rest ∧
    (∀ o ∈ expectedViolOutcomes rate t0 0 rest,
      o.reachedHandler = false ∧ o.deleted = true) ∧
    (expectedViolOutcomes rate t0 0 rest).map (fun o => o.bannedNotice) =
      (List.range rest.length).map (fun i => decide (i + 1 ≤ 2)) ∧
    (rest ≠ [] → (∀ t ∈ rest, t ≤ t0 + rate) →
      (throttleRun rate { lastCall := none, exceededCount := 0 }
          (t0 :: rest)).2.countP
        (fun o => unbannedNotice rate (t0 :: rest) o.unbanCheck) = 1) := by
  have hgap : List.Chain (fun a b => b - a < rate) t0 rest :=
    hchain.imp (fun a b h => h.2)
  have hstep0 : on_process_message rate false
      { lastCall := none, exceededCount := 0 } t0 =
      ({ lastCall := some t0, exceededCount := 0 },
       { reachedHandler := true, deleted := false, bannedNotice := false,
         unbanCheck := none }) := by
    simp [on_process_message, throttleCall]
  have hrun : (throttleRun rate { lastCall := none, exceededCount := 0 }
      (t0 :: rest)).2 =
      { reachedHandler := true, deleted := false, bannedNotice := false,
        unbanCheck := none } :: expectedViolOutcomes rate t0 0 rest := by
    simp only [throttleRun, hstep0, throttleRun_chain rate rest t0 0 hgap]
  refine ⟨hrun, fun o ho => expectedViol_mem rate rest t0 0 o ho, ?_, ?_⟩
  · rw [expectedViol_banned_map rate rest t0 0]
    apply List.map_congr_left
    intro i _
    simp
  · intro hne hburst
    have hlt : ∀ t ∈ rest, t0 < t := by
      have hc : List.Chain (· < ·) t0 rest := hchain.imp (fun a b h => h.1)
      have hp : List.Pairwise (· < ·) (t0 :: rest) :=
        List.chain_iff_pairwise.mp hc
      exact fun t ht => (List.pairwise_cons.mp hp).1 t ht
    have hratepos : 0 < rate := by
      obtain ⟨t1, ts, rfl⟩ := List.exists_cons_of_ne_nil hne
      rcases List.chain_cons.mp hchain with ⟨⟨hlt1, hgap1⟩, _⟩
      linarith
    have hwake : ∀ p ∈ t0 :: rest,
        exceededAt rate (t0 :: rest) (p + rate) = rest.length := by
      intro p hp
      apply exceededAt_all rate t0 rest _ hgap
      intro t ht
      have ht0p : t0 ≤ p := by
        rcases List.mem_cons.mp hp with rfl | hp'
        · exact le_rfl
        · exact le_of_lt (hlt p hp')
      rcases List.mem_cons.mp ht with rfl | ht'
      · linarith
      · have := hburst t ht'
        linarith
    rw [hrun, List.countP_cons,
      expectedViol_countP_unbanned rate (t0 :: rest) rest.length rest t0 0 hwake]
    have hlen : 0 < rest.length := List.length_pos.mpr hne
    rw [if_pos (by omega)]
    simp [unbannedNotice]

/-- C6 witness: rate 10, a clean message at time 0, then a burst of three
violations at times 1, 2 and 3: the run matches the expected outcome list,
banned notices fire at violations 1 and 2 only, and exactly one unbanned
notice fires. -/
theorem c6_rate_limiter_notifications_witness :
    (throttleRun 10 { lastCall := none, exceededCount := 0 }
        ((0 : ℚ) :: [1, 2, 3])).2 =
      { reachedHandler := true, deleted := false, bannedNotice := false,
        unbanCheck := none } :: expectedViolOutcomes 10 0 0 [1, 2, 3] ∧
    (expectedViolOutcomes 10 0 0 [1, 2, 3]).map (fun o => o.bannedNotice) =
      (List.range ([1, 2, 3] : List ℚ).length).map
        (fun i => decide (i + 1 ≤ 2)) ∧
    (throttleRun 10 { lastCall := none, exceededCount := 0 }
        ((0 : ℚ) :: [1, 2, 3])).2.countP
      (fun o => unbannedNotice 10 ((0 : ℚ) :: [1, 2, 3]) o.unbanCheck) = 1 :=
  ⟨(c6_rate_limiter_notifications 10 0 [1, 2, 3]
      (by norm_num [List.chain_cons])).1,
   (c6_rate_limiter_notifications 10 0 [1, 2, 3]
      (by norm_num [List.chain_cons])).2.2.1,
   (c6_rate_limiter_notifications 10 0 [1, 2, 3]
      (by norm_num [List.chain_cons])).2.2.2
     (by simp)
     (by intro t ht; fin_cases ht <;> norm_num)⟩

end BotApp.Throttling
